import Mathlib

/-!
Verification of the simulated training-job lifecycle of `server.js`
(Express + better-sqlite3 app; the job simulator is
`runTrainingSimulation`, the cancel endpoint `POST /api/jobs/:jobId/cancel`,
and the creation endpoint `POST /api/projects/:id/jobs`).

Shallow embedding conventions:
  * The per-job state visible to the simulator is modelled explicitly:
    the stored row (`status`, `progress`, `metrics_json`, `error`), the
    process-wide `jobTimers` registry entry (a live `setInterval` handle,
    modelled as one Bool since `clearInterval` and `jobTimers.delete`
    always happen together in the source), the in-memory `step` counter
    and the in-memory `metrics` buffer.
  * JS numbers that the simulator derives from `config` are modelled by
    `JsNum`: a finite value (in ℚ, exact — double rounding/overflow of
    finite arithmetic is not modelled), `+Infinity`, `-Infinity` (both
    reachable, e.g. `Number()` of a JSON `1e400`), or `NaN` (`Number(x)`
    of a non-numeric value).  `Math.max`, `*`, `Math.round`, `Math.min`,
    division and comparisons propagate/absorb `NaN` and the infinities
    exactly as in JS: any comparison with `NaN` is false, arithmetic on
    `NaN` yields `NaN`, `step/Infinity` is `0`, and `Infinity * 0` is
    `NaN`.  A computed `NaN` progress is `none : Option ℤ`; writing it
    is impossible: better-sqlite3 binds `NaN` as `NULL`, which the
    `progress INTEGER NOT NULL` column (server.js line 68) rejects, so
    such an `UPDATE` throws.
  * `Math.random()` draws and `Date.now()` readings are oracles, passed
    in as functions of the tick number.
  * A store write (`db.prepare(...).run(...)`) may throw; each tick takes
    a Boolean saying whether writes succeed at that firing.  An exception
    thrown inside the `setInterval` callback escapes it uncaught (there
    is no try/catch in the callback), which the model reports as a Bool.
  * Metric payloads (`loss`, `accuracy`) are polymorphic in `α`: the
    control flow of the simulator never inspects them.  Lifecycle
    theorems are proved for every `α`; the numeric loss/accuracy claims
    instantiate `α := ℝ` with the source's formulas over `Real.exp`.
-/

namespace JobSim

/-- Job status column: `queued | running | completed | failed | canceled`
(server.js line 67). -/
inductive Status where
  | queued
  | running
  | completed
  | failed
  | canceled
deriving DecidableEq, Repr

/-- One element pushed onto the in-memory `metrics` array:
`{ step, loss, accuracy, timeMs: Date.now() - startTime }` (server.js
line 319). `timeMs` is the name used by the source. -/
structure Sample (α : Type) where
  step : ℕ
  loss : α
  accuracy : α
  timeMs : ℤ
deriving DecidableEq, Repr

/-- Field names of the object literal pushed at server.js line 319, in
source order. -/
def sampleFieldNames : List String := ["step", "loss", "accuracy", "timeMs"]

/-- Modelled from the spec: the spec's `MetricSample` shape
`{step:int, loss:float, accuracy:float, elapsedMs:int}` (spec §6), used
only to compare field names against the source's object literal. -/
def specSampleFieldNames : List String := ["step", "loss", "accuracy", "elapsedMs"]

/-- The columns of a `jobs` row that the simulator and the cancel handler
read or write (`status`, `progress`, `metrics_json` parsed, `error`).
`progress = none` models a `NaN` progress value. -/
structure StoredJob (α : Type) where
  status : Status
  progress : Option ℤ
  metrics : List (Sample α)
  error : Option String
deriving DecidableEq, Repr

/-- Full per-job state: the stored row, whether `jobTimers` holds a live
interval for this job (`clearInterval` + `jobTimers.delete` always happen
together in the source, so one flag suffices), the in-memory `step`
counter and the in-memory `metrics` buffer of the interval closure. -/
structure SimState (α : Type) where
  stored : StoredJob α
  registered : Bool
  step : ℕ
  buf : List (Sample α)
deriving DecidableEq, Repr

/-- The value class of a JS double as the simulator can observe it: a
finite value (modelled exactly in ℚ; double rounding/overflow of finite
arithmetic is not modelled), `+Infinity`, `-Infinity`, or `NaN`. -/
inductive JsNum where
  | fin (q : ℚ)
  | posInf
  | negInf
  | nan
deriving DecidableEq, Repr

/-- A config field as seen through `Number(config?.field ?? default)`:
absent (`undefined`/`null`, so the `??` default applies), a present
value that `Number` coerces to the finite rational `q`, to `+Infinity`
or `-Infinity` (e.g. a JSON `1e400` / `-1e400` in the request body), or
to `NaN`. -/
inductive ConfigVal where
  | absent
  | num (q : ℚ)
  | posInf
  | negInf
  | nonNum
deriving DecidableEq, Repr

/-- The two config fields the simulator reads (server.js lines 303-304). -/
structure Config where
  epochs : ConfigVal
  stepsPerEpoch : ConfigVal
deriving DecidableEq, Repr

/-- `Number(v ?? d)`: the `??` default fires only for absent
(nullish) values; a present value keeps whatever `Number` coerces it to,
including the infinities and `NaN`. -/
def numberOf : ConfigVal → ℚ → JsNum
  | .absent, d => .fin d
  | .num q, _ => .fin q
  | .posInf, _ => .posInf
  | .negInf, _ => .negInf
  | .nonNum, _ => .nan

/-- JS `*` on double value classes: `NaN` is absorbing,
`±Infinity * 0 = NaN`, otherwise infinities follow the sign rule. -/
def jsMul : JsNum → JsNum → JsNum
  | .nan, _ => .nan
  | _, .nan => .nan
  | .fin a, .fin b => .fin (a * b)
  | .posInf, .posInf => .posInf
  | .posInf, .negInf => .negInf
  | .negInf, .posInf => .negInf
  | .negInf, .negInf => .posInf
  | .posInf, .fin q => if 0 < q then .posInf else if q < 0 then .negInf else .nan
  | .fin q, .posInf => if 0 < q then .posInf else if q < 0 then .negInf else .nan
  | .negInf, .fin q => if 0 < q then .negInf else if q < 0 then .posInf else .nan
  | .fin q, .negInf => if 0 < q then .negInf else if q < 0 then .posInf else .nan

/-- JS `Math.max` on double value classes: any `NaN` argument gives
`NaN`, otherwise the usual order with `-Infinity` neutral. -/
def jsMax : JsNum → JsNum → JsNum
  | .nan, _ => .nan
  | _, .nan => .nan
  | .posInf, _ => .posInf
  | _, .posInf => .posInf
  | .negInf, y => y
  | x, .negInf => x
  | .fin a, .fin b => .fin (max a b)

/-- `totalSteps = Math.max(epochs * stepsPerEpoch, 20)` with
`epochs = Number(config?.epochs ?? 5)` and
`stepsPerEpoch = Number(config?.stepsPerEpoch ?? 20)` (server.js lines
303-305).  `NaN` propagates through `*` and `Math.max`; an `Infinity`
field propagates to `totalSteps = Infinity`. -/
def totalSteps (c : Config) : JsNum :=
  jsMax (jsMul (numberOf c.epochs 5) (numberOf c.stepsPerEpoch 20)) (.fin 20)

/-- The default config: both fields absent, so `epochs = 5`,
`stepsPerEpoch = 20`, `totalSteps = 100`. -/
def defaultConfig : Config := ⟨.absent, .absent⟩

/-- A config whose `epochs` is present but non-numeric
(`Number(epochs) = NaN`). -/
def badConfig : Config := ⟨.nonNum, .absent⟩

/-- A config whose `epochs` is present and `+Infinity` (reachable: a
JSON body `{"config":{"epochs":1e400}}` parses `1e400` to `Infinity`). -/
def infConfig : Config := ⟨.posInf, .absent⟩

/-- A config with numeric `epochs = 10`, `stepsPerEpoch = 20`, giving
`totalSteps = 200`. -/
def configTenTwenty : Config := ⟨.num 10, .num 20⟩

/-- A config field that is absent or a finite number — the cases the
fallback policy actually covers (present `±Infinity` and `NaN` fields
are neither defaulted nor finite). -/
def finiteVal : ConfigVal → Prop
  | .absent => True
  | .num _ => True
  | .posInf => False
  | .negInf => False
  | .nonNum => False

instance instDecFiniteVal : (v : ConfigVal) → Decidable (finiteVal v)
  | .absent => inferInstanceAs (Decidable True)
  | .num _ => inferInstanceAs (Decidable True)
  | .posInf => inferInstanceAs (Decidable False)
  | .negInf => inferInstanceAs (Decidable False)
  | .nonNum => inferInstanceAs (Decidable False)

/-- Configs whose two simulator-read fields are absent or finite
numeric. -/
def goodCfg (c : Config) : Prop := finiteVal c.epochs ∧ finiteVal c.stepsPerEpoch

instance (c : Config) : Decidable (goodCfg c) := by
  unfold goodCfg; infer_instance

/-- `Math.round` for the non-negative values that arise here: nearest
integer, halves toward `+∞`. -/
def jsRound (q : ℚ) : ℤ := ⌊q + 1 / 2⌋

/-- `progress = Math.min(Math.round((step / totalSteps) * 100), 100)`
(server.js line 315).  With `totalSteps = NaN` the whole expression is
`NaN` (`none`); with `totalSteps = ±Infinity`, `step/±Infinity` is `∓0`,
so the expression is `0`.  A finite `totalSteps` is `≥ 20 > 0` whenever
reachable, so ℚ division matches JS division there. -/
def progressOf (k : ℕ) : JsNum → Option ℤ
  | .fin t => some (min (jsRound ((k : ℚ) / t * 100)) 100)
  | .posInf => some 0
  | .negInf => some 0
  | .nan => none

/-- `step >= totalSteps` (server.js line 327): any comparison against
`NaN` is false, and no finite step reaches `+Infinity`. -/
def stepReached (k : ℕ) : JsNum → Prop
  | .fin t => t ≤ (k : ℚ)
  | .posInf => False
  | .negInf => True
  | .nan => False

instance instDecStepReached (k : ℕ) : (T : JsNum) → Decidable (stepReached k T)
  | .fin t => inferInstanceAs (Decidable (t ≤ (k : ℚ)))
  | .posInf => inferInstanceAs (Decidable False)
  | .negInf => inferInstanceAs (Decidable True)
  | .nan => inferInstanceAs (Decidable False)

/-- The sample pushed at tick `k`:
`{ step, loss, accuracy, timeMs: Date.now() - startTime }` (server.js
lines 314-319).  `g k` are the loss/accuracy values of tick `k` (they
depend on the `Math.random()` oracle), `e k` is `Date.now() - startTime`
at tick `k`. -/
def mkSample (g : ℕ → α × α) (e : ℕ → ℤ) (k : ℕ) : Sample α :=
  { step := k, loss := (g k).1, accuracy := (g k).2, timeMs := e k }

/-- Tail of the interval callback (server.js lines 327-332): if
`step >= totalSteps`, `clearInterval` + `jobTimers.delete(jobId)`, then
write `status='completed', progress=100, metrics_json=buf`.  If that
write throws (`wOk = false`) the timer is nonetheless already stopped and
deregistered, the row is left as it was, and the exception escapes. -/
def tickFinish (T : JsNum) (wOk : Bool) (s : SimState α) : SimState α × Bool :=
  if stepReached s.step T then
    if wOk then
      ({ s with
          registered := false,
          stored := { s.stored with
            status := .completed
            progress := some 100
            metrics := s.buf } }, false)
    else
      ({ s with registered := false }, true)
  else
    (s, false)

/-- One firing of the interval callback (server.js lines 312-333):
`step++`; compute `progress`; push the sample; flush
`(progress, metrics)` when `step % 2 == 0 || progress === 100`; then the
termination check.  A cleared interval never fires (`registered = false`
is a no-op).  `wOk = false` means the store write at this firing throws:
the callback has no try/catch, so the exception escapes (second component
`true`) and everything after the throwing write is skipped.  A flush
whose computed `progress` is `NaN` (`none`) ALWAYS throws, whatever
`wOk`: better-sqlite3 binds `NaN` as `NULL` and the
`progress INTEGER NOT NULL` column (server.js line 68) rejects it. -/
def tick (T : JsNum) (g : ℕ → α × α) (e : ℕ → ℤ) (wOk : Bool)
    (s : SimState α) : SimState α × Bool :=
  if s.registered then
    let k := s.step + 1
    let prog := progressOf k T
    let s1 : SimState α := { s with step := k, buf := s.buf ++ [mkSample g e k] }
    if k % 2 = 0 ∨ prog = some 100 then
      if prog = none then
        (s1, true)
      else if wOk then
        tickFinish T wOk
          { s1 with stored := { s1.stored with progress := prog, metrics := s1.buf } }
      else
        (s1, true)
    else
      tickFinish T wOk s1
  else
    (s, false)

/-- `POST /api/jobs/:jobId/cancel` for an existing job (server.js lines
286-294): stop+remove the timer if present (no-op otherwise), then
`UPDATE jobs SET status='canceled', progress=job.progress` — the
unconditional update rewrites `status` to `canceled` whatever it was, and
writes back the `progress` value that was just read; `metrics_json` and
`error` are untouched, and the in-memory buffer is never flushed. -/
def cancelJob (s : SimState α) : SimState α :=
  { s with
      registered := false,
      stored := { s.stored with
        status := .canceled
        progress := s.stored.progress } }

/-- The state right after `runTrainingSimulation` has run its synchronous
prefix: the row was inserted `('queued', 0, '[]')` (server.js lines
257-259), `status` was set to `running` (line 300), and the interval was
registered (lines 312, 335). -/
def initState (α : Type) : SimState α :=
  { stored := { status := .running, progress := some 0, metrics := [], error := none },
    registered := true, step := 0, buf := [] }

/-- `POST /api/projects/:id/jobs` on an existing project (server.js lines
255-272), all writes succeeding: insert the `queued` row, call
`runTrainingSimulation(jobId, config)` — an `async` function with no
`await`, so its whole body (the `status='running'` write, the
`totalSteps` computation, `setInterval`, `jobTimers.set`) runs
synchronously during the call — then re-read the row for the 201
response.  Returns the state handed to the timer and the response row. -/
def createJob (α : Type) : SimState α × StoredJob α :=
  let s0 : SimState α :=
    { stored := { status := .queued, progress := some 0, metrics := [], error := none },
      registered := false, step := 0, buf := [] }
  let s1 : SimState α :=
    { s0 with stored := { s0.stored with status := .running }, registered := true }
  (s1, s1.stored)

/-- `n` firings of the interval with every store write succeeding. -/
def runTicks (T : JsNum) (g : ℕ → α × α) (e : ℕ → ℤ) :
    ℕ → SimState α → SimState α
  | 0, s => s
  | n + 1, s => runTicks T g e n (tick T g e true s).1

/-- An externally visible event against one job: an interval firing
(whose store writes succeed iff `wOk`) or a cancel request. -/
inductive Event where
  | tick (wOk : Bool)
  | cancel
deriving DecidableEq, Repr

/-- Apply one event. -/
def stepEv (T : JsNum) (g : ℕ → α × α) (e : ℕ → ℤ) :
    Event → SimState α → SimState α
  | .tick w, s => (tick T g e w s).1
  | .cancel, s => cancelJob s

/-- Apply a sequence of events, oldest first. -/
def runTrace (T : JsNum) (g : ℕ → α × α) (e : ℕ → ℤ) :
    List Event → SimState α → SimState α
  | [], s => s
  | ev :: evs, s => runTrace T g e evs (stepEv T g e ev s)

/-- The buffer the callback has accumulated after `n` firings: samples
for steps `1..n` in order. -/
def buildBuf (g : ℕ → α × α) (e : ℕ → ℤ) : ℕ → List (Sample α)
  | 0 => []
  | n + 1 => buildBuf g e n ++ [mkSample g e (n + 1)]

/-- `[1, 2, ..., n]`. -/
def natSeq : ℕ → List ℕ
  | 0 => []
  | n + 1 => natSeq n ++ [n + 1]

/-- Trivial metric payloads, for concrete-state evaluation. -/
def gUnit : ℕ → Unit × Unit := fun _ => ((), ())

/-- A concrete `Date.now() - startTime` oracle: the reference cadence is
500 ms per step (server.js line 310). -/
def eClock : ℕ → ℤ := fun k => 500 * k

/-- JS `Number.prototype.toFixed(4)` (then re-read as a number) for the
non-negative values arising here: round to 4 decimal places, halves up. -/
noncomputable def toFix4 (x : ℝ) : ℝ := (⌊x * 10000 + 1 / 2⌋ : ℤ) / 10000

/-- `loss = Number((1.5 * Math.exp(-3 * t) + 0.05 * Math.random()).toFixed(4))`
with `t = step / totalSteps` (server.js lines 316-317); `r` is the
`Math.random()` draw of this tick. -/
noncomputable def lossVal (k n : ℕ) (r : ℝ) : ℝ :=
  toFix4 (1.5 * Real.exp (-3 * ((k : ℝ) / (n : ℝ))) + 0.05 * r)

/-- `accuracy = Number((0.5 + 0.5 * t + 0.05 * (Math.random() - 0.5)).toFixed(4))`
(server.js line 318). -/
noncomputable def accVal (k n : ℕ) (r : ℝ) : ℝ :=
  toFix4 (0.5 + 0.5 * ((k : ℝ) / (n : ℝ)) + 0.05 * (r - 0.5))

/-- The loss/accuracy generator of a default-config run with loss noise
`ν` and accuracy noise `μ` (both `Math.random()` streams). -/
noncomputable def realGen (ν μ : ℕ → ℝ) : ℕ → ℝ × ℝ :=
  fun k => (lossVal k 100 (ν k), accVal k 100 (μ k))

/-- Terminal statuses (spec §3 / glossary). -/
def Terminal (st : Status) : Prop :=
  st = .completed ∨ st = .failed ∨ st = .canceled

instance (st : Status) : Decidable (Terminal st) := by
  unfold Terminal; infer_instance

/-- Structural invariant of a job's state: the in-memory buffer holds
exactly the samples of steps `1..step`, and the stored `metrics_json` is
the buffer as of some earlier firing. -/
def Inv (g : ℕ → α × α) (e : ℕ → ℤ) (s : SimState α) : Prop :=
  s.buf = buildBuf g e s.step ∧
  ∃ m, m ≤ s.step ∧ s.stored.metrics = buildBuf g e m

section Lemmas

variable {α : Type} (T : JsNum) (g : ℕ → α × α) (e : ℕ → ℤ)

/-- A cleared interval never fires again. -/
theorem tick_noreg {s : SimState α} (h : s.registered = false) (w : Bool) :
    tick T g e w s = (s, false) := by
  simp [tick, h]

/-- The computed progress is `NaN` exactly when `totalSteps` is `NaN`. -/
theorem progressOf_none_iff (k : ℕ) (T : JsNum) :
    progressOf k T = none ↔ T = .nan := by
  cases T <;> simp [progressOf]

/-- A reached step count means `totalSteps` is finite or `-Infinity`, so
the computed progress is a number, not `NaN`. -/
theorem stepReached_prog_some (k : ℕ) (T : JsNum) (h : stepReached k T) :
    progressOf k T ≠ none := by
  cases T <;> simp [progressOf, stepReached] at h ⊢

/-- One mid-run firing with a successful write, for a non-`NaN` computed
progress (so the flush can actually bind it): the step counter advances,
the sample is appended, the timer stays live, status and error are
untouched, and the row is updated exactly when the cadence flushes. -/
theorem tick_run {s : SimState α} (hreg : s.registered = true)
    (hmid : ¬ stepReached (s.step + 1) T)
    (hp : progressOf (s.step + 1) T ≠ none) :
    (tick T g e true s).1.registered = true ∧
    (tick T g e true s).1.step = s.step + 1 ∧
    (tick T g e true s).1.buf = s.buf ++ [mkSample g e (s.step + 1)] ∧
    (tick T g e true s).1.stored.status = s.stored.status ∧
    (tick T g e true s).1.stored.error = s.stored.error ∧
    (((s.step + 1) % 2 = 0 ∨ progressOf (s.step + 1) T = some 100) →
      (tick T g e true s).1.stored.progress = progressOf (s.step + 1) T ∧
      (tick T g e true s).1.stored.metrics = s.buf ++ [mkSample g e (s.step + 1)]) ∧
    (¬ ((s.step + 1) % 2 = 0 ∨ progressOf (s.step + 1) T = some 100) →
      (tick T g e true s).1.stored = s.stored) ∧
    (tick T g e true s).2 = false := by
  by_cases hf : (s.step + 1) % 2 = 0 ∨ progressOf (s.step + 1) T = some 100 <;>
    simp [tick, tickFinish, hreg, hmid, hf, hp]

/-- The completing firing with a successful write (server.js lines
327-332): when the incremented step reaches `totalSteps`, the timer is
stopped and deregistered and the final row
`status='completed', progress=100, metrics=buf` is written. -/
theorem tick_done {s : SimState α} (hreg : s.registered = true)
    (hdone : stepReached (s.step + 1) T) :
    tick T g e true s =
      ({ stored := { status := .completed, progress := some 100,
                     metrics := s.buf ++ [mkSample g e (s.step + 1)],
                     error := s.stored.error },
         registered := false, step := s.step + 1,
         buf := s.buf ++ [mkSample g e (s.step + 1)] }, false) := by
  have hp := stepReached_prog_some (s.step + 1) T hdone
  by_cases hf : (s.step + 1) % 2 = 0 ∨ progressOf (s.step + 1) T = some 100 <;>
    simp [tick, tickFinish, hreg, hdone, hf, hp]

/-- A firing whose cadence flush throws (`wOk = false` at a flushing
step): the in-memory step counter and buffer have already been mutated,
but the exception escapes the callback before the row update, the
termination check, `clearInterval` and the registry removal. -/
theorem tick_throw_flush {s : SimState α} (hreg : s.registered = true)
    (hf : (s.step + 1) % 2 = 0 ∨ progressOf (s.step + 1) T = some 100) :
    tick T g e false s =
      ({ s with step := s.step + 1,
                buf := s.buf ++ [mkSample g e (s.step + 1)] }, true) := by
  by_cases hp : progressOf (s.step + 1) T = none
  · have heven : (s.step + 1) % 2 = 0 := by
      rcases hf with h | h
      · exact h
      · rw [hp] at h; exact Option.noConfusion h
    simp [tick, hreg, heven, hp]
  · simp [tick, hreg, hf, hp]

/-- With `totalSteps = NaN` every firing advances the in-memory state
but leaves the row untouched and the timer live: an odd step attempts no
write, and an even step's flush computes `NaN` progress, whose `UPDATE`
throws (NULL into the NOT NULL `progress` column) whatever the write
infrastructure would have done; `step >= NaN` never holds, so the
termination branch is unreachable. -/
theorem tick_nan {s : SimState α} (hreg : s.registered = true) (w : Bool) :
    (tick .nan g e w s).1
      = { s with step := s.step + 1,
                 buf := s.buf ++ [mkSample g e (s.step + 1)] } := by
  by_cases hf : (s.step + 1) % 2 = 0 <;>
    simp [tick, tickFinish, progressOf, stepReached, hreg, hf]

/-- With `totalSteps = NaN`, an even step's flush throws. -/
theorem tick_nan_snd {s : SimState α} (hreg : s.registered = true) (w : Bool)
    (hf : (s.step + 1) % 2 = 0) : (tick .nan g e w s).2 = true := by
  simp [tick, progressOf, hreg, hf]

/-- A mid-run firing at a non-flushing step attempts no write at all, so
it behaves the same whether or not writes would succeed. -/
theorem tick_noflush_mid {s : SimState α} (hreg : s.registered = true)
    (hf : ¬ ((s.step + 1) % 2 = 0 ∨ progressOf (s.step + 1) T = some 100))
    (hr : ¬ stepReached (s.step + 1) T) (w : Bool) :
    tick T g e w s =
      ({ s with step := s.step + 1,
                buf := s.buf ++ [mkSample g e (s.step + 1)] }, false) := by
  simp [tick, tickFinish, hreg, hf, hr]

/-- A completing firing at a non-flushing step whose final write throws:
the timer is already stopped and the registry entry removed (they precede
the write), but the row keeps its last flushed contents and the
exception escapes. -/
theorem tick_noflush_done_throw {s : SimState α} (hreg : s.registered = true)
    (hf : ¬ ((s.step + 1) % 2 = 0 ∨ progressOf (s.step + 1) T = some 100))
    (hr : stepReached (s.step + 1) T) :
    tick T g e false s =
      ({ s with registered := false, step := s.step + 1,
                buf := s.buf ++ [mkSample g e (s.step + 1)] }, true) := by
  simp [tick, tickFinish, hreg, hf, hr]

/-- Peel the last firing off a run. -/
theorem runTicks_succ (n : ℕ) (s : SimState α) :
    runTicks T g e (n + 1) s = (tick T g e true (runTicks T g e n s)).1 := by
  induction n generalizing s with
  | zero => rfl
  | succ n ih => rw [runTicks, ih, runTicks]

/-- Split a run. -/
theorem runTicks_add (a b : ℕ) (s : SimState α) :
    runTicks T g e (a + b) s = runTicks T g e b (runTicks T g e a s) := by
  induction a generalizing s with
  | zero => rw [Nat.zero_add]; rfl
  | succ a ih => rw [Nat.succ_add]; rw [runTicks, runTicks, ih]

/-- Once the interval is cleared, further firings are no-ops. -/
theorem runTicks_stay (n : ℕ) {s : SimState α} (h : s.registered = false) :
    runTicks T g e n s = s := by
  induction n with
  | zero => rfl
  | succ n ih => rw [runTicks, tick_noreg T g e h, ih]

/-- While the step counter stays strictly below `totalSteps`, a run from
the initial state keeps the timer live, the status `running`, the error
empty, and accumulates the buffer of steps `1..n`. -/
theorem run_mid (t : ℚ) (n : ℕ) (hn : (n : ℚ) < t) :
    (runTicks (.fin t) g e n (initState α)).registered = true ∧
    (runTicks (.fin t) g e n (initState α)).step = n ∧
    (runTicks (.fin t) g e n (initState α)).stored.status = .running ∧
    (runTicks (.fin t) g e n (initState α)).stored.error = none ∧
    (runTicks (.fin t) g e n (initState α)).buf = buildBuf g e n := by
  induction n with
  | zero => exact ⟨rfl, rfl, rfl, rfl, rfl⟩
  | succ n ih =>
    have hn' : (n : ℚ) < t := by
      refine lt_of_le_of_lt ?_ hn
      exact_mod_cast Nat.cast_le.mpr (Nat.le_succ n)
    obtain ⟨h1, h2, h3, h4, h5⟩ := ih hn'
    have hmid : ¬ stepReached ((runTicks (.fin t) g e n (initState α)).step + 1) (.fin t) := by
      rw [h2]; simp only [stepReached, not_le]; exact_mod_cast hn
    obtain ⟨r1, r2, r3, r4, r5, _, _, _⟩ :=
      tick_run (.fin t) g e h1 hmid (by simp [progressOf])
    rw [runTicks_succ]
    refine ⟨r1, ?_, ?_, ?_, ?_⟩
    · rw [r2, h2]
    · rw [r4, h3]
    · rw [r5, h4]
    · rw [r3, h5, h2]; rfl

/-- The firing that reaches `totalSteps` completes the job: timer
stopped, registry entry removed, final row
`status='completed', progress=100` with the full buffer written. -/
theorem run_done (t : ℚ) (n : ℕ) (hn : (n : ℚ) < t)
    (hd : stepReached (n + 1) (.fin t)) :
    runTicks (.fin t) g e (n + 1) (initState α) =
      { stored := { status := .completed, progress := some 100,
                    metrics := buildBuf g e (n + 1), error := none },
        registered := false, step := n + 1, buf := buildBuf g e (n + 1) } := by
  obtain ⟨h1, h2, h3, h4, h5⟩ := run_mid g e t n hn
  have hd' : stepReached ((runTicks (.fin t) g e n (initState α)).step + 1) (.fin t) := by
    rw [h2]; exact hd
  rw [runTicks_succ]
  have := tick_done (.fin t) g e h1 hd'
  rw [this]
  rw [h2, h4, h5]
  rfl

/-- `buildBuf` only ever grows. -/
theorem buildBuf_prefix {m n : ℕ} (h : m ≤ n) :
    buildBuf g e m <+: buildBuf g e n := by
  induction n with
  | zero => rw [Nat.le_zero.mp h]
  | succ n ih =>
    rcases Nat.eq_or_lt_of_le h with h' | h'
    · rw [h']
    · exact (ih (Nat.lt_succ_iff.mp h')).trans
        (List.prefix_append (buildBuf g e n) [mkSample g e (n + 1)])

/-- The 1-based step numbers of the accumulated buffer. -/
theorem buildBuf_map_step (n : ℕ) :
    (buildBuf g e n).map Sample.step = natSeq n := by
  induction n with
  | zero => rfl
  | succ n ih => simp [buildBuf, natSeq, ih, mkSample]

/-- The buffer after `n` firings has `n` samples. -/
theorem buildBuf_length (n : ℕ) : (buildBuf g e n).length = n := by
  induction n with
  | zero => rfl
  | succ n ih => simp [buildBuf, ih]

/-- One event preserves the structural invariant, never shrinks the
stored metrics or the buffer, and preserves "terminal ⇒ timer gone". -/
theorem stepEv_inv (ev : Event) {s : SimState α} (h : Inv g e s)
    (ht : Terminal s.stored.status → s.registered = false) :
    Inv g e (stepEv T g e ev s) ∧
    s.stored.metrics <+: (stepEv T g e ev s).stored.metrics ∧
    s.buf <+: (stepEv T g e ev s).buf ∧
    (Terminal (stepEv T g e ev s).stored.status →
      (stepEv T g e ev s).registered = false) := by
  obtain ⟨hbuf, m, hm, hmet⟩ := h
  cases ev with
  | cancel =>
    refine ⟨⟨hbuf, m, hm, hmet⟩, List.prefix_refl _, List.prefix_refl _, ?_⟩
    intro _; rfl
  | tick w =>
    cases hreg : s.registered with
    | false =>
      rw [stepEv, tick_noreg T g e hreg]
      exact ⟨⟨hbuf, m, hm, hmet⟩, List.prefix_refl _, List.prefix_refl _, ht⟩
    | true =>
      have hnt : ¬ Terminal s.stored.status := fun htm => by
        rw [ht htm] at hreg; exact absurd hreg Bool.false_ne_true
      have hgrow : s.buf ++ [mkSample g e (s.step + 1)] = buildBuf g e (s.step + 1) := by
        rw [hbuf]; rfl
      have happ : s.buf <+: s.buf ++ [mkSample g e (s.step + 1)] :=
        List.prefix_append _ _
      have hpre1 : s.stored.metrics <+: s.buf := by
        rw [hmet, hbuf]; exact buildBuf_prefix g e hm
      have hpre2 : s.stored.metrics <+: s.buf ++ [mkSample g e (s.step + 1)] :=
        hpre1.trans happ
      rw [stepEv]
      cases w with
      | false =>
        by_cases hf : (s.step + 1) % 2 = 0 ∨ progressOf (s.step + 1) T = some 100
        · rw [tick_throw_flush T g e hreg hf]
          exact ⟨⟨hgrow, m, Nat.le_succ_of_le hm, hmet⟩,
            List.prefix_refl _, happ, fun htm => absurd htm hnt⟩
        · by_cases hr : stepReached (s.step + 1) T
          · rw [tick_noflush_done_throw T g e hreg hf hr]
            exact ⟨⟨hgrow, m, Nat.le_succ_of_le hm, hmet⟩,
              List.prefix_refl _, happ, fun _ => rfl⟩
          · rw [tick_noflush_mid T g e hreg hf hr false]
            exact ⟨⟨hgrow, m, Nat.le_succ_of_le hm, hmet⟩,
              List.prefix_refl _, happ, fun htm => absurd htm hnt⟩
      | true =>
        by_cases hp : progressOf (s.step + 1) T = none
        · obtain rfl : T = .nan := (progressOf_none_iff (s.step + 1) T).mp hp
          rw [tick_nan g e hreg true]
          exact ⟨⟨hgrow, m, Nat.le_succ_of_le hm, hmet⟩,
            List.prefix_refl _, happ, fun htm => absurd htm hnt⟩
        by_cases hr : stepReached (s.step + 1) T
        · rw [show (tick T g e true s).1 = _ from congrArg Prod.fst (tick_done T g e hreg hr)]
          exact ⟨⟨hgrow, s.step + 1, le_refl _, hgrow⟩, hpre2, happ, fun _ => rfl⟩
        · obtain ⟨r1, r2, r3, rstat, _, rflush, rnoflush, _⟩ := tick_run T g e hreg hr hp
          by_cases hf : (s.step + 1) % 2 = 0 ∨ progressOf (s.step + 1) T = some 100
          · obtain ⟨_, rmet⟩ := rflush hf
            refine ⟨⟨?_, s.step + 1, ?_, ?_⟩, ?_, ?_, ?_⟩
            · rw [r3, r2, hgrow]
            · rw [r2]
            · rw [rmet, hgrow]
            · rw [rmet]; exact hpre2
            · rw [r3]; exact happ
            · intro htm; rw [rstat] at htm; exact absurd htm hnt
          · have rst := rnoflush hf
            refine ⟨⟨?_, m, ?_, ?_⟩, ?_, ?_, ?_⟩
            · rw [r3, r2, hgrow]
            · rw [r2]; exact Nat.le_succ_of_le hm
            · rw [rst, hmet]
            · rw [rst]
            · rw [r3]; exact happ
            · intro htm; rw [rstat] at htm; exact absurd htm hnt

/-- Split a trace. -/
theorem runTrace_append (evs1 evs2 : List Event) (s : SimState α) :
    runTrace T g e (evs1 ++ evs2) s = runTrace T g e evs2 (runTrace T g e evs1 s) := by
  induction evs1 generalizing s with
  | nil => rfl
  | cons ev evs ih => rw [List.cons_append, runTrace, runTrace, ih]

/-- The structural invariant, monotone growth of the stored metrics and
of the buffer, and "terminal ⇒ timer gone", along any event trace. -/
theorem runTrace_inv (evs : List Event) {s : SimState α} (h : Inv g e s)
    (ht : Terminal s.stored.status → s.registered = false) :
    Inv g e (runTrace T g e evs s) ∧
    s.stored.metrics <+: (runTrace T g e evs s).stored.metrics ∧
    s.buf <+: (runTrace T g e evs s).buf ∧
    (Terminal (runTrace T g e evs s).stored.status →
      (runTrace T g e evs s).registered = false) := by
  induction evs generalizing s with
  | nil => exact ⟨h, List.prefix_refl _, List.prefix_refl _, ht⟩
  | cons ev evs ih =>
    obtain ⟨h1, h2, h3, h4⟩ := stepEv_inv T g e ev h ht
    obtain ⟨i1, i2, i3, i4⟩ := ih h1 h4
    exact ⟨i1, h2.trans i2, h3.trans i3, i4⟩

/-- The initial state satisfies the structural invariant. -/
theorem initState_inv : Inv g e (initState α) := ⟨rfl, 0, le_refl 0, rfl⟩

/-- The initial state is `running`, hence not terminal. -/
theorem initState_term :
    Terminal (initState α).stored.status → (initState α).registered = false := by
  intro h
  rcases h with h | h | h <;> exact Status.noConfusion h

/-- First sample of a nonempty buffer. -/
theorem buildBuf_head (n : ℕ) :
    (buildBuf g e (n + 1)).head? = some (mkSample g e 1) := by
  induction n with
  | zero => rfl
  | succ n ih =>
    rw [buildBuf]
    cases hb : buildBuf g e (n + 1) with
    | nil => rw [hb] at ih; exact absurd ih (by simp)
    | cons a l => rw [hb] at ih; simpa using ih

/-- Last sample of a nonempty buffer. -/
theorem buildBuf_getLast (n : ℕ) :
    (buildBuf g e (n + 1)).getLast? = some (mkSample g e (n + 1)) := by
  rw [buildBuf, List.getLast?_append_cons]
  rfl

/-- `natSeq` has length `n`. -/
theorem natSeq_length (n : ℕ) : (natSeq n).length = n := by
  induction n with
  | zero => rfl
  | succ n ih => simp [natSeq, ih]

/-- `totalSteps` of the default config is 100. -/
theorem totalSteps_default : totalSteps defaultConfig = .fin 100 := by
  show JsNum.fin (max ((5 : ℚ) * 20) 20) = JsNum.fin 100
  norm_num

/-- `totalSteps` of `epochs=10, stepsPerEpoch=20` is 200. -/
theorem totalSteps_tenTwenty : totalSteps configTenTwenty = .fin 200 := by
  show JsNum.fin (max ((10 : ℚ) * 20) 20) = JsNum.fin 200
  norm_num

/-- `totalSteps` of a config with `epochs = Infinity` is `Infinity`. -/
theorem totalSteps_inf : totalSteps infConfig = .posInf := by
  have h1 : jsMul JsNum.posInf (JsNum.fin 20) = JsNum.posInf := by
    norm_num [jsMul]
  show jsMax (jsMul JsNum.posInf (JsNum.fin 20)) (JsNum.fin 20) = JsNum.posInf
  rw [h1]
  rfl

/-- At step 199 of 200, `step/totalSteps = 0.995`, and `Math.round`
lifts `99.5` to `100`, so the computed progress is already 100. -/
theorem progressOf_199_200 : progressOf 199 (.fin 200) = some 100 := by
  simp only [progressOf, jsRound, Option.map_some]
  norm_num [Int.floor_eq_iff]

/-- Rounding bounds of `toFixed(4)`, above. -/
theorem toFix4_le (x : ℝ) : toFix4 x ≤ x + 1 / 20000 := by
  have h := Int.floor_le (x * 10000 + 1 / 2)
  have h10 : (0 : ℝ) < 10000 := by norm_num
  rw [toFix4, div_le_iff₀ h10]
  calc (⌊x * 10000 + 1 / 2⌋ : ℝ) ≤ x * 10000 + 1 / 2 := h
    _ = (x + 1 / 20000) * 10000 := by ring

/-- Rounding bounds of `toFixed(4)`, below. -/
theorem lt_toFix4 (x : ℝ) : x - 1 / 20000 < toFix4 x := by
  have h := Int.sub_one_lt_floor (x * 10000 + 1 / 2)
  have h10 : (0 : ℝ) < 10000 := by norm_num
  rw [toFix4, lt_div_iff₀ h10]
  calc (x - 1 / 20000) * 10000 = x * 10000 + 1 / 2 - 1 := by ring
    _ < (⌊x * 10000 + 1 / 2⌋ : ℝ) := h

/-- With `totalSteps = 100`, the loss of the last sample is numerically
below the loss of the first sample, whatever the two `Math.random()`
draws were: `1.5·e⁻³ + 0.05·r₂ + ε < 1.5·e^(-0.03) + 0.05·r₁ - ε`. -/
theorem lossVal_lt {r1 r2 : ℝ} (h1 : 0 ≤ r1) (h2b : r2 < 1) :
    lossVal 100 100 r2 < lossVal 1 100 r1 := by
  rw [lossVal, lossVal]
  have e1 : ((100 : ℕ) : ℝ) / ((100 : ℕ) : ℝ) = 1 := by norm_num
  have e2 : ((1 : ℕ) : ℝ) / ((100 : ℕ) : ℝ) = 1 / 100 := by norm_num
  rw [e1, e2]
  have hexp3 : Real.exp (-3 * 1) ≤ 1 / 4 := by
    rw [show (-3 : ℝ) * 1 = -3 by ring, Real.exp_neg]
    have h4 : (4 : ℝ) ≤ Real.exp 3 := by
      have := Real.add_one_le_exp (3 : ℝ); linarith
    have h0 : (0 : ℝ) < 4 := by norm_num
    calc (Real.exp 3)⁻¹ ≤ (4 : ℝ)⁻¹ := by
          exact inv_anti₀ h0 h4
      _ = 1 / 4 := by norm_num
  have hexp003 : (97 / 100 : ℝ) ≤ Real.exp (-3 * (1 / 100)) := by
    have := Real.add_one_le_exp (-3 * (1 / 100) : ℝ)
    linarith
  have hA := toFix4_le (1.5 * Real.exp (-3 * 1) + 0.05 * r2)
  have hB := lt_toFix4 (1.5 * Real.exp (-3 * (1 / 100)) + 0.05 * r1)
  have hexp3' : (0 : ℝ) < Real.exp (-3 * 1) := Real.exp_pos _
  nlinarith [hA, hB, hexp3, hexp003, h1, h2b]

/-- The computed progress at step 1 of a 100-step run is 1. -/
theorem progressOf_1_100 : progressOf 1 (.fin 100) = some 1 := by
  simp only [progressOf, jsRound, Option.map_some]
  norm_num [Int.floor_eq_iff]

end Lemmas

/-!
## Claims
-/

/-- Claim C1, counterexample: a job that ran to natural completion under
the default config (`totalSteps = 100`) is stored as `completed` — a
terminal state — yet a subsequent cancel request rewrites its status to
`canceled`: the cancel handler's `UPDATE` is unconditional, so terminal
states are not final and cancel on a terminal job is not a status no-op. -/
theorem cancel_rewrites_completed_job :
    (runTicks (.fin 100) gUnit eClock 100 (initState Unit)).stored.status = .completed ∧
    Terminal (runTicks (.fin 100) gUnit eClock 100 (initState Unit)).stored.status ∧
    (cancelJob (runTicks (.fin 100) gUnit eClock 100 (initState Unit))).stored.status
      = .canceled ∧
    Status.canceled ≠ Status.completed := by
  have h := run_done gUnit eClock 100 99 (by norm_num)
    (by simp only [stepReached]; norm_num)
  rw [show (99 : ℕ) + 1 = 100 from rfl] at h
  rw [h]
  exact ⟨rfl, Or.inl rfl, rfl, fun hc => Status.noConfusion hc⟩

/-- Claim C1, amended: `canceled` is absorbing — canceling twice is
idempotent and returns the same record, and canceling an
already-canceled job leaves the row unchanged; ticks never mutate a job
whose timer is gone, and along every event trace a terminal stored
status implies the timer is gone.  However (per the counterexample)
`cancelJob` rewrites a `completed` or `failed` job to `canceled`. -/
theorem canceled_absorbing_terminal_frozen {α : Type} (T : JsNum)
    (g : ℕ → α × α) (e : ℕ → ℤ) :
    (∀ s : SimState α, cancelJob (cancelJob s) = cancelJob s) ∧
    (∀ s : SimState α, s.stored.status = .canceled → (cancelJob s).stored = s.stored) ∧
    (∀ evs : List Event,
      Terminal (runTrace T g e evs (initState α)).stored.status →
        (runTrace T g e evs (initState α)).registered = false) ∧
    (∀ s : SimState α, s.registered = false → ∀ w, tick T g e w s = (s, false)) := by
  refine ⟨fun s => rfl, fun s h => ?_, fun evs => ?_,
    fun s h w => tick_noreg T g e h w⟩
  · cases s with
    | mk st reg sp bf =>
      cases st with
      | mk a b c d => simp_all [cancelJob]
  · exact (runTrace_inv T g e evs (initState_inv g e) initState_term).2.2.2

/-- Claim C1, witness for the amended theorem at concrete inputs: a
canceled job is a fixed point of `cancelJob`, its record is unchanged by
a second cancel, the one-event trace `[cancel]` satisfies
terminal-implies-unregistered, and a tick on the unregistered canceled
state is a no-op. -/
theorem canceled_absorbing_terminal_frozen_witness :
    (cancelJob (cancelJob (cancelJob (initState Unit)))
      = cancelJob (cancelJob (initState Unit))) ∧
    ((cancelJob (initState Unit)).stored.status = .canceled ∧
      (cancelJob (cancelJob (initState Unit))).stored
        = (cancelJob (initState Unit)).stored) ∧
    (Terminal (runTrace (.fin 100) gUnit eClock [Event.cancel]
        (initState Unit)).stored.status →
      (runTrace (.fin 100) gUnit eClock [Event.cancel] (initState Unit)).registered
        = false) ∧
    ((cancelJob (initState Unit)).registered = false ∧
      tick (.fin 100) gUnit eClock true (cancelJob (initState Unit))
        = (cancelJob (initState Unit), false)) :=
  ⟨(canceled_absorbing_terminal_frozen (.fin 100) gUnit eClock).1
      (cancelJob (initState Unit)),
   ⟨rfl, (canceled_absorbing_terminal_frozen (.fin 100) gUnit eClock).2.1 _ rfl⟩,
   (canceled_absorbing_terminal_frozen (.fin 100) gUnit eClock).2.2.1 [Event.cancel],
   ⟨rfl, (canceled_absorbing_terminal_frozen (.fin 100) gUnit eClock).2.2.2 _ rfl true⟩⟩

/-- Claim C2, counterexample: on tick 4 of a default-config job the
cadence flush is due; if that store write throws, the exception escapes
the uncaught callback: the timer is NOT stopped (the registry entry
remains), NO `status='failed'` row is written, no error message is
captured — the row still says `running` — and a subsequent firing of the
still-scheduled interval executes tick 5. -/
theorem tick_write_failure_not_failed :
    ((tick (.fin 100) gUnit eClock false
        (runTicks (.fin 100) gUnit eClock 3 (initState Unit))).2 = true) ∧
    ((tick (.fin 100) gUnit eClock false
        (runTicks (.fin 100) gUnit eClock 3 (initState Unit))).1.registered = true) ∧
    ((tick (.fin 100) gUnit eClock false
        (runTicks (.fin 100) gUnit eClock 3 (initState Unit))).1.stored.status
      = .running) ∧
    ((tick (.fin 100) gUnit eClock false
        (runTicks (.fin 100) gUnit eClock 3 (initState Unit))).1.stored.error = none) ∧
    ((tick (.fin 100) gUnit eClock true
        (tick (.fin 100) gUnit eClock false
          (runTicks (.fin 100) gUnit eClock 3 (initState Unit))).1).1.step = 5) := by
  obtain ⟨h1, h2, h3, h4, h5⟩ := run_mid gUnit eClock 100 3 (by norm_num)
  set s3 := runTicks (.fin 100) gUnit eClock 3 (initState Unit) with hs3
  have hf : (s3.step + 1) % 2 = 0 ∨ progressOf (s3.step + 1) (.fin 100) = some 100 :=
    Or.inl (by rw [h2])
  have ht := tick_throw_flush (.fin 100) gUnit eClock h1 hf
  rw [ht]
  refine ⟨rfl, h1, h3, h4, ?_⟩
  have hreg4 : ({ s3 with
      step := s3.step + 1
      buf := s3.buf ++ [mkSample gUnit eClock (s3.step + 1)] } : SimState Unit).registered
      = true := h1
  have hmid4 : ¬ stepReached (({ s3 with
      step := s3.step + 1
      buf := s3.buf ++ [mkSample gUnit eClock (s3.step + 1)] } : SimState Unit).step + 1)
      (.fin 100) := by
    show ¬ stepReached (s3.step + 1 + 1) (.fin 100)
    rw [h2]
    simp only [stepReached]
    norm_num
  rw [(tick_run (.fin 100) gUnit eClock hreg4 hmid4 (by simp [progressOf])).2.1]
  show s3.step + 1 + 1 = 5
  rw [h2]

/-- Claim C2, amended: only a store-write failure during the synchronous
startup of `runTrainingSimulation` is caught (by the `.catch` in the
creation handler); a store write that throws during a tick is not
handled by the callback: the exception escapes, the timer is not
stopped, the registry entry is not removed, nothing is persisted — the
stored row (still `running`, no error) is exactly as before the tick —
and the interval remains scheduled, so the next firing still executes. -/
theorem tick_write_failure_escapes {α : Type} (T : JsNum) (g : ℕ → α × α)
    (e : ℕ → ℤ) (s : SimState α) (hreg : s.registered = true)
    (hf : (s.step + 1) % 2 = 0 ∨ progressOf (s.step + 1) T = some 100) :
    (tick T g e false s).2 = true ∧
    (tick T g e false s).1.registered = true ∧
    (tick T g e false s).1.stored = s.stored ∧
    (tick T g e false s).1.step = s.step + 1 ∧
    (tick T g e false s).1.buf = s.buf ++ [mkSample g e (s.step + 1)] := by
  rw [tick_throw_flush T g e hreg hf]
  exact ⟨rfl, hreg, rfl, rfl, rfl⟩

/-- Claim C2, witness for the amended theorem: a concrete job whose
second tick (an even, flushing step) suffers a write failure. -/
theorem tick_write_failure_escapes_witness :
    (({ initState Unit with step := 1 } : SimState Unit).registered = true) ∧
    ((2 : ℕ) % 2 = 0 ∨ progressOf 2 (.fin 100) = some 100) ∧
    ((tick (.fin 100) gUnit eClock false { initState Unit with step := 1 }).2 = true ∧
      (tick (.fin 100) gUnit eClock false
        { initState Unit with step := 1 }).1.registered = true ∧
      (tick (.fin 100) gUnit eClock false
        { initState Unit with step := 1 }).1.stored = (initState Unit).stored ∧
      (tick (.fin 100) gUnit eClock false
        { initState Unit with step := 1 }).1.step = 2 ∧
      (tick (.fin 100) gUnit eClock false
        { initState Unit with step := 1 }).1.buf = [mkSample gUnit eClock 2]) :=
  ⟨rfl, Or.inl rfl,
   tick_write_failure_escapes (.fin 100) gUnit eClock
     { initState Unit with step := 1 } rfl (Or.inl rfl)⟩

/-- Claim C3, counterexample: a config whose `epochs` is present but
non-numeric is NOT defaulted — `Number(epochs)` is `NaN`, `totalSteps`
is `NaN` (not a well-defined positive integer, and different from the
defaulted 100) — and the job never terminates: `step >= NaN` is always
false, every even tick's flush computes `NaN` progress whose `UPDATE`
throws (`NaN` binds as `NULL` into the `NOT NULL` progress column), as
tick 2 shows, so after 50 ticks (and inductively forever) the job is
still `running` with a live timer and its row frozen at the initial
state. -/
theorem nonNumeric_config_no_default :
    totalSteps badConfig = .nan ∧
    totalSteps badConfig ≠ totalSteps defaultConfig ∧
    (tick (totalSteps badConfig) gUnit eClock true
      (tick (totalSteps badConfig) gUnit eClock true (initState Unit)).1).2 = true ∧
    (runTicks (totalSteps badConfig) gUnit eClock 50 (initState Unit)).stored.status
      = .running ∧
    (runTicks (totalSteps badConfig) gUnit eClock 50 (initState Unit)).registered
      = true ∧
    (runTicks (totalSteps badConfig) gUnit eClock 50 (initState Unit)).stored
      = (initState Unit).stored ∧
    ¬ Terminal (runTicks (totalSteps badConfig) gUnit eClock 50
      (initState Unit)).stored.status := by
  set_option maxRecDepth 10000 in decide

/-- Claim C3, amended: only absent config fields fall back to the
defaults (`epochs=5`, `stepsPerEpoch=20`).  For every config whose two
fields are absent or finite numeric, `totalSteps =
max(epochs·stepsPerEpoch, 20)` is a well-defined rational `≥ 20` and
every run reaches the terminal state `completed` (timer deregistered,
progress 100) after at most `⌈totalSteps⌉` ticks.  But a present
non-numeric field makes `totalSteps` `NaN`: such a job ticks forever —
status `running`, timer live, and the row frozen at its initial state
because every even tick's flush computes `NaN` progress, whose `UPDATE`
throws.  And a present `Infinity` field (reachable via a JSON `1e400`)
is numeric yet also never terminates: `step >= Infinity` never holds,
so the job stays `running` with a live timer forever (its flushes
succeed with progress pinned at `round(step/Infinity·100) = 0`). -/
theorem config_fallback_termination {α : Type} (g : ℕ → α × α) (e : ℕ → ℤ) :
    (∀ c : Config, goodCfg c →
      ∃ t : ℚ, totalSteps c = .fin t ∧ 20 ≤ t ∧
        ∀ n, (⌈t⌉).toNat ≤ n →
          (runTicks (totalSteps c) g e n (initState α)).stored.status = .completed ∧
          (runTicks (totalSteps c) g e n (initState α)).registered = false ∧
          (runTicks (totalSteps c) g e n (initState α)).stored.progress = some 100) ∧
    (∀ c : Config, totalSteps c = .nan →
      ∀ n, (runTicks (totalSteps c) g e n (initState α)).stored = (initState α).stored ∧
        (runTicks (totalSteps c) g e n (initState α)).stored.status = .running ∧
        (runTicks (totalSteps c) g e n (initState α)).registered = true) ∧
    (∀ c : Config, totalSteps c = .posInf →
      ∀ n, (runTicks (totalSteps c) g e n (initState α)).stored.status = .running ∧
        (runTicks (totalSteps c) g e n (initState α)).registered = true) := by
  refine ⟨?_, ?_, ?_⟩
  · intro c hc
    obtain ⟨h1, h2⟩ := hc
    obtain ⟨qe, he⟩ : ∃ q, numberOf c.epochs 5 = .fin q := by
      cases hce : c.epochs with
      | absent => exact ⟨5, rfl⟩
      | num q => exact ⟨q, rfl⟩
      | posInf => rw [hce] at h1; exact h1.elim
      | negInf => rw [hce] at h1; exact h1.elim
      | nonNum => rw [hce] at h1; exact h1.elim
    obtain ⟨qs, hs⟩ : ∃ q, numberOf c.stepsPerEpoch 20 = .fin q := by
      cases hcs : c.stepsPerEpoch with
      | absent => exact ⟨20, rfl⟩
      | num q => exact ⟨q, rfl⟩
      | posInf => rw [hcs] at h2; exact h2.elim
      | negInf => rw [hcs] at h2; exact h2.elim
      | nonNum => rw [hcs] at h2; exact h2.elim
    have htot : totalSteps c = .fin (max (qe * qs) 20) := by
      unfold totalSteps
      rw [he, hs]
      rfl
    refine ⟨max (qe * qs) 20, htot, le_max_right _ _, ?_⟩
    set t := max (qe * qs) 20 with hts
    intro n hn
    have ht20 : (20 : ℚ) ≤ t := le_max_right _ _
    have hc0 : (0 : ℤ) ≤ ⌈t⌉ := Int.ceil_nonneg (by linarith)
    have hcast : ((⌈t⌉.toNat : ℕ) : ℚ) = ((⌈t⌉ : ℤ) : ℚ) := by
      exact_mod_cast congrArg (fun z : ℤ => (z : ℚ)) (Int.toNat_of_nonneg hc0)
    have hN1 : 1 ≤ ⌈t⌉.toNat := by
      have hq : (20 : ℚ) ≤ ((⌈t⌉ : ℤ) : ℚ) := le_trans ht20 (Int.le_ceil t)
      have hz : (20 : ℤ) ≤ ⌈t⌉ := by exact_mod_cast hq
      omega
    have hreach : stepReached (⌈t⌉.toNat) (.fin t) := by
      simp only [stepReached]
      rw [hcast]
      exact Int.le_ceil t
    have hmidq : ((⌈t⌉.toNat - 1 : ℕ) : ℚ) < t := by
      by_contra hcon
      push_neg at hcon
      have hz : ⌈t⌉ ≤ ((⌈t⌉.toNat - 1 : ℕ) : ℤ) := by
        rw [Int.ceil_le]
        exact_mod_cast hcon
      omega
    have hfin := run_done g e t (⌈t⌉.toNat - 1) hmidq
      (by rw [Nat.sub_add_cancel hN1]; exact hreach)
    rw [Nat.sub_add_cancel hN1] at hfin
    have hregF : (runTicks (.fin t) g e (⌈t⌉.toNat) (initState α)).registered = false := by
      rw [hfin]
    have hstay := runTicks_stay (.fin t) g e (n - ⌈t⌉.toNat) hregF
    have hsplit : runTicks (.fin t) g e n (initState α)
        = runTicks (.fin t) g e (n - ⌈t⌉.toNat)
            (runTicks (.fin t) g e (⌈t⌉.toNat) (initState α)) := by
      rw [← runTicks_add]
      congr 1
      omega
    rw [htot, hsplit, hstay, hfin]
    exact ⟨rfl, rfl, rfl⟩
  · intro c hnone n
    rw [hnone]
    induction n with
    | zero => exact ⟨rfl, rfl, rfl⟩
    | succ n ih =>
      obtain ⟨i1, i2, i3⟩ := ih
      rw [runTicks_succ, tick_nan g e i3 true]
      exact ⟨i1, i2, i3⟩
  · intro c hpos n
    rw [hpos]
    induction n with
    | zero => exact ⟨rfl, rfl⟩
    | succ n ih =>
      obtain ⟨i1, i2⟩ := ih
      rw [runTicks_succ]
      obtain ⟨r1, _, _, r4, _, _, _, _⟩ :=
        tick_run .posInf g e i2 (fun h => h) (by simp [progressOf])
      exact ⟨r4.trans i1, r1⟩

/-- Claim C3, witness for the amended theorem: the default (absent)
config is covered by the fallback and terminates; the non-numeric
config has `NaN` `totalSteps` and is frozen and still running after 7
ticks; the `Infinity` config is still running after 7 ticks. -/
theorem config_fallback_termination_witness :
    goodCfg defaultConfig ∧ totalSteps badConfig = .nan ∧
    totalSteps infConfig = .posInf ∧
    (∃ t : ℚ, totalSteps defaultConfig = .fin t ∧ 20 ≤ t ∧
      ∀ n, (⌈t⌉).toNat ≤ n →
        (runTicks (totalSteps defaultConfig) gUnit eClock n
          (initState Unit)).stored.status = .completed ∧
        (runTicks (totalSteps defaultConfig) gUnit eClock n
          (initState Unit)).registered = false ∧
        (runTicks (totalSteps defaultConfig) gUnit eClock n
          (initState Unit)).stored.progress = some 100) ∧
    ((runTicks (totalSteps badConfig) gUnit eClock 7 (initState Unit)).stored
        = (initState Unit).stored ∧
      (runTicks (totalSteps badConfig) gUnit eClock 7 (initState Unit)).stored.status
        = .running ∧
      (runTicks (totalSteps badConfig) gUnit eClock 7 (initState Unit)).registered
        = true) ∧
    ((runTicks (totalSteps infConfig) gUnit eClock 7 (initState Unit)).stored.status
        = .running ∧
      (runTicks (totalSteps infConfig) gUnit eClock 7 (initState Unit)).registered
        = true) :=
  ⟨⟨trivial, trivial⟩, rfl, totalSteps_inf,
   (config_fallback_termination gUnit eClock).1 defaultConfig ⟨trivial, trivial⟩,
   (config_fallback_termination gUnit eClock).2.1 badConfig rfl 7,
   (config_fallback_termination gUnit eClock).2.2 infConfig totalSteps_inf 7⟩

/-- Claim C4, counterexample: the code computes progress with
`Math.round` (nearest, halves up), not `floor`.  With `epochs=10,
stepsPerEpoch=20` (`totalSteps = 200`), at step 199 the fraction is
`0.995`: the code computes `min(round(99.5), 100) = 100`, while the
claimed floor formula gives `min(floor(99.5), 100) = 99`. -/
theorem progress_not_floor :
    totalSteps configTenTwenty = .fin 200 ∧
    progressOf 199 (.fin 200) = some 100 ∧
    min ⌊(199 : ℚ) / 200 * 100⌋ 100 = 99 ∧
    (100 : ℤ) ≠ 99 :=
  ⟨totalSteps_tenTwenty, progressOf_199_200,
   by norm_num [Int.floor_eq_iff], by norm_num⟩

/-- Claim C4, amended: at every flushing mid-run tick the progress value
computed and persisted is `min(⌊step/totalSteps·100 + 1/2⌋, 100)` — the
half-up rounding of `Math.round`, capped at 100, a deterministic
function of `step` and `totalSteps` — not the floor. -/
theorem progress_round_half_up {α : Type} (t : ℚ) (g : ℕ → α × α) (e : ℕ → ℤ)
    (s : SimState α) (hreg : s.registered = true)
    (hf : (s.step + 1) % 2 = 0 ∨ progressOf (s.step + 1) (.fin t) = some 100)
    (hr : ¬ stepReached (s.step + 1) (.fin t)) :
    (tick (.fin t) g e true s).1.stored.progress
      = some (min ⌊((s.step + 1 : ℕ) : ℚ) / t * 100 + 1 / 2⌋ 100) ∧
    progressOf (s.step + 1) (.fin t)
      = some (min ⌊((s.step + 1 : ℕ) : ℚ) / t * 100 + 1 / 2⌋ 100) := by
  have h2 : progressOf (s.step + 1) (.fin t)
      = some (min ⌊((s.step + 1 : ℕ) : ℚ) / t * 100 + 1 / 2⌋ 100) := rfl
  exact ⟨((tick_run (.fin t) g e hreg hr (by simp [progressOf])).2.2.2.2.2.1 hf).1.trans h2,
    h2⟩

/-- Claim C4, witness for the amended theorem: a concrete job of
`totalSteps = 200` at its second (flushing) tick persists
`min(⌊2/200·100 + 1/2⌋, 100)`. -/
theorem progress_round_half_up_witness :
    (({ initState Unit with step := 1 } : SimState Unit).registered = true) ∧
    ((2 : ℕ) % 2 = 0 ∨ progressOf 2 (.fin 200) = some 100) ∧
    (¬ stepReached 2 (.fin 200)) ∧
    ((tick (.fin 200) gUnit eClock true
        { initState Unit with step := 1 }).1.stored.progress
      = some (min ⌊((2 : ℕ) : ℚ) / 200 * 100 + 1 / 2⌋ 100) ∧
      progressOf 2 (.fin 200)
        = some (min ⌊((2 : ℕ) : ℚ) / 200 * 100 + 1 / 2⌋ 100)) :=
  ⟨rfl, Or.inl rfl, by simp only [stepReached]; norm_num,
   progress_round_half_up 200 gUnit eClock { initState Unit with step := 1 }
     rfl (Or.inl rfl) (by simp only [stepReached]; norm_num)⟩

/-- Claim C5: a default-config job (`totalSteps = 100`) run to natural
completion, for every pair of `Math.random()` noise streams (each draw
in `[0,1)`) and every clock: at tick 100 the timer is stopped and
deregistered, the final row is `status='completed', progress=100` with
exactly 100 samples, and the last sample's loss is numerically lower
than the first sample's loss. -/
theorem default_run_completes (ν μ : ℕ → ℝ) (e : ℕ → ℤ)
    (hν : ∀ k, 0 ≤ ν k ∧ ν k < 1) :
    (runTicks (totalSteps defaultConfig) (realGen ν μ) e 100
        (initState ℝ)).registered = false ∧
    (runTicks (totalSteps defaultConfig) (realGen ν μ) e 100
        (initState ℝ)).stored.status = .completed ∧
    (runTicks (totalSteps defaultConfig) (realGen ν μ) e 100
        (initState ℝ)).stored.progress = some 100 ∧
    (runTicks (totalSteps defaultConfig) (realGen ν μ) e 100
        (initState ℝ)).stored.metrics.length = 100 ∧
    (runTicks (totalSteps defaultConfig) (realGen ν μ) e 100
        (initState ℝ)).stored.metrics.head? = some (mkSample (realGen ν μ) e 1) ∧
    (runTicks (totalSteps defaultConfig) (realGen ν μ) e 100
        (initState ℝ)).stored.metrics.getLast? = some (mkSample (realGen ν μ) e 100) ∧
    (mkSample (realGen ν μ) e 100).loss < (mkSample (realGen ν μ) e 1).loss := by
  rw [totalSteps_default]
  have h := run_done (realGen ν μ) e 100 99 (by norm_num)
    (by simp only [stepReached]; norm_num)
  rw [show (99 : ℕ) + 1 = 100 from rfl] at h
  rw [h]
  refine ⟨rfl, rfl, rfl, buildBuf_length _ _ 100, ?_, ?_, ?_⟩
  · exact buildBuf_head (realGen ν μ) e 99
  · exact buildBuf_getLast (realGen ν μ) e 99
  · exact lossVal_lt (hν 1).1 (hν 100).2

/-- Claim C5, witness: the zero noise streams (a legal draw, `0 ∈
[0,1)`) with the 500 ms clock. -/
theorem default_run_completes_witness :
    (∀ k : ℕ, 0 ≤ (fun _ : ℕ => (0 : ℝ)) k ∧ (fun _ : ℕ => (0 : ℝ)) k < 1) ∧
    ((runTicks (totalSteps defaultConfig)
        (realGen (fun _ => 0) (fun _ => 0)) eClock 100 (initState ℝ)).registered
        = false ∧
      (runTicks (totalSteps defaultConfig)
        (realGen (fun _ => 0) (fun _ => 0)) eClock 100 (initState ℝ)).stored.status
        = .completed ∧
      (runTicks (totalSteps defaultConfig)
        (realGen (fun _ => 0) (fun _ => 0)) eClock 100 (initState ℝ)).stored.progress
        = some 100 ∧
      (runTicks (totalSteps defaultConfig)
        (realGen (fun _ => 0) (fun _ => 0)) eClock 100
          (initState ℝ)).stored.metrics.length = 100 ∧
      (runTicks (totalSteps defaultConfig)
        (realGen (fun _ => 0) (fun _ => 0)) eClock 100
          (initState ℝ)).stored.metrics.head?
        = some (mkSample (realGen (fun _ => 0) (fun _ => 0)) eClock 1) ∧
      (runTicks (totalSteps defaultConfig)
        (realGen (fun _ => 0) (fun _ => 0)) eClock 100
          (initState ℝ)).stored.metrics.getLast?
        = some (mkSample (realGen (fun _ => 0) (fun _ => 0)) eClock 100) ∧
      (mkSample (realGen (fun _ => 0) (fun _ => 0)) eClock 100).loss
        < (mkSample (realGen (fun _ => 0) (fun _ => 0)) eClock 1).loss) :=
  ⟨fun _ => ⟨le_refl 0, one_pos⟩,
   default_run_completes (fun _ => 0) (fun _ => 0) eClock
     (fun _ => ⟨le_refl 0, one_pos⟩)⟩

/-- Claim C6: canceling a job with a live registry entry stops and
removes the timer and persists `status='canceled'` while leaving the
stored progress, stored metrics and error exactly as last flushed; the
in-memory buffer and step counter are untouched and never written. -/
theorem cancel_live_job_freezes {α : Type} (s : SimState α)
    (_h : s.registered = true) :
    (cancelJob s).registered = false ∧
    (cancelJob s).stored.status = .canceled ∧
    (cancelJob s).stored.progress = s.stored.progress ∧
    (cancelJob s).stored.metrics = s.stored.metrics ∧
    (cancelJob s).stored.error = s.stored.error ∧
    (cancelJob s).buf = s.buf ∧
    (cancelJob s).step = s.step :=
  ⟨rfl, rfl, rfl, rfl, rfl, rfl, rfl⟩

/-- Claim C6, witness: canceling before any tick has fired (the state
right after the simulator registered the timer) yields
`status=canceled, progress=0, metrics=[]`. -/
theorem cancel_live_job_freezes_witness :
    (initState Unit).registered = true ∧
    ((cancelJob (initState Unit)).registered = false ∧
      (cancelJob (initState Unit)).stored.status = .canceled ∧
      (cancelJob (initState Unit)).stored.progress = (initState Unit).stored.progress ∧
      (cancelJob (initState Unit)).stored.metrics = (initState Unit).stored.metrics ∧
      (cancelJob (initState Unit)).stored.error = (initState Unit).stored.error ∧
      (cancelJob (initState Unit)).buf = (initState Unit).buf ∧
      (cancelJob (initState Unit)).step = (initState Unit).step) ∧
    (cancelJob (initState Unit)).stored
      = { status := .canceled, progress := some 0, metrics := [], error := none } :=
  ⟨rfl, cancel_live_job_freezes (initState Unit) rfl, rfl⟩

/-- Claim C7: along every event trace (ticks with succeeding or throwing
writes, cancels, in any order) the in-memory buffer's samples are
`step = i+1` at every index (`[1, 2, ..., step]`), the stored metrics
are likewise contiguously numbered, the stored metrics are a prefix of
the buffer, and extending the trace never shrinks the buffer or the
stored metrics (append-only, monotone). -/
theorem metrics_contiguous_append_only {α : Type} (T : JsNum)
    (g : ℕ → α × α) (e : ℕ → ℤ) (evs evs2 : List Event) :
    (runTrace T g e evs (initState α)).buf.map Sample.step
      = natSeq (runTrace T g e evs (initState α)).step ∧
    (runTrace T g e evs (initState α)).stored.metrics.map Sample.step
      = natSeq (runTrace T g e evs (initState α)).stored.metrics.length ∧
    (runTrace T g e evs (initState α)).stored.metrics
      <+: (runTrace T g e evs (initState α)).buf ∧
    (runTrace T g e evs (initState α)).buf
      <+: (runTrace T g e (evs ++ evs2) (initState α)).buf ∧
    (runTrace T g e evs (initState α)).stored.metrics
      <+: (runTrace T g e (evs ++ evs2) (initState α)).stored.metrics := by
  obtain ⟨⟨hbuf, m, hm, hmet⟩, _, _, ht⟩ :=
    runTrace_inv T g e evs (initState_inv g e) initState_term
  obtain ⟨_, hg1, hg2, _⟩ :=
    runTrace_inv T g e evs2 (s := runTrace T g e evs (initState α))
      ⟨hbuf, m, hm, hmet⟩ ht
  have happ := runTrace_append T g e evs evs2 (initState α)
  refine ⟨?_, ?_, ?_, ?_, ?_⟩
  · rw [hbuf, buildBuf_map_step]
  · rw [hmet, buildBuf_map_step, buildBuf_length]
  · rw [hbuf, hmet]; exact buildBuf_prefix g e hm
  · rw [happ]; exact hg2
  · rw [happ]; exact hg1

/-- Claim C8, counterexample: the object literal the simulator pushes
holds its elapsed time under the field name `timeMs`, not the claimed
`elapsedMs`; a concrete first tick appends exactly
`{step: 1, loss, accuracy, timeMs: 500}`. -/
theorem sample_field_named_timeMs :
    sampleFieldNames ≠ specSampleFieldNames ∧
    specSampleFieldNames = ["step", "loss", "accuracy", "elapsedMs"] ∧
    "elapsedMs" ∉ sampleFieldNames ∧
    (runTrace (.fin 100) gUnit eClock [Event.tick true] (initState Unit)).buf
      = [mkSample gUnit eClock 1] := by
  refine ⟨by decide, rfl, by decide, ?_⟩
  have hp : progressOf 1 (.fin 100) = some 1 := progressOf_1_100
  have hf : ¬ (((initState Unit).step + 1) % 2 = 0 ∨
      progressOf ((initState Unit).step + 1) (.fin 100) = some 100) := by
    rw [show (initState Unit).step + 1 = 1 from rfl, hp]
    rintro (h | h)
    · exact absurd h (by decide)
    · exact absurd h (by simp)
  have hr : ¬ stepReached ((initState Unit).step + 1) (.fin 100) := by
    rw [show (initState Unit).step + 1 = 1 from rfl]
    simp only [stepReached]
    norm_num
  simp only [runTrace, stepEv]
  rw [tick_noflush_mid (.fin 100) gUnit eClock rfl hf hr true]
  rfl

/-- Claim C8, amended: every sample the simulator appends (and hence
everything a client reads back from the stored metrics) has exactly the
fields `step` (the 1-based tick number, hence an integer `≥ 1`), `loss`,
`accuracy`, and `timeMs` (integer milliseconds since the run's start,
`Date.now() - startTime`): the buffer after any trace is exactly
`buildBuf`, the stored metrics are a `buildBuf` stage, and the elapsed
field is named `timeMs`, not `elapsedMs`. -/
theorem sample_shape_timeMs {α : Type} (T : JsNum) (g : ℕ → α × α)
    (e : ℕ → ℤ) (evs : List Event) :
    (runTrace T g e evs (initState α)).buf
      = buildBuf g e (runTrace T g e evs (initState α)).step ∧
    (∃ m, m ≤ (runTrace T g e evs (initState α)).step ∧
      (runTrace T g e evs (initState α)).stored.metrics = buildBuf g e m) ∧
    sampleFieldNames = ["step", "loss", "accuracy", "timeMs"] ∧
    "elapsedMs" ∉ sampleFieldNames := by
  obtain ⟨⟨h1, h2⟩, _, _, _⟩ :=
    runTrace_inv T g e evs (initState_inv g e) initState_term
  exact ⟨h1, h2, rfl, by decide⟩

/-- Claim C9: `runTrainingSimulation` is an `async` function with no
`await`, so its body up to and including the `status='running'` write
and the timer registration runs synchronously inside the creation
handler's call; the handler's re-read therefore returns a `running` —
never `queued` — row, and the state handed to the timer is exactly the
initial simulator state. -/
theorem creation_response_running (α : Type) :
    (createJob α).2.status = .running ∧
    (createJob α).2.status ≠ .queued ∧
    (createJob α).1 = initState α ∧
    (createJob α).2 = (initState α).stored :=
  ⟨rfl, fun h => Status.noConfusion h, rfl, rfl⟩

/-- Claim C10: stored progress 100 does not imply a terminal status.
With `epochs=10, stepsPerEpoch=20` (`totalSteps = 200`), after tick 199
the computed progress is `round(99.5·...)=100`, the `progress === 100`
condition flushes it, yet `step < totalSteps`, so the stored row says
`progress=100` while the status is still `running` and the timer is
still live. -/
theorem progress_100_while_running :
    totalSteps configTenTwenty = .fin 200 ∧
    (runTicks (totalSteps configTenTwenty) gUnit eClock 199
      (initState Unit)).stored.progress = some 100 ∧
    (runTicks (totalSteps configTenTwenty) gUnit eClock 199
      (initState Unit)).stored.status = .running ∧
    (runTicks (totalSteps configTenTwenty) gUnit eClock 199
      (initState Unit)).registered = true := by
  refine ⟨totalSteps_tenTwenty, ?_⟩
  rw [totalSteps_tenTwenty]
  obtain ⟨h1, h2, h3, h4, h5⟩ := run_mid gUnit eClock 200 198 (by norm_num)
  have hmid : ¬ stepReached
      ((runTicks (.fin 200) gUnit eClock 198 (initState Unit)).step + 1) (.fin 200) := by
    rw [h2]
    simp only [stepReached]
    norm_num
  obtain ⟨r1, r2, r3, r4, r5, rflush, _, _⟩ :=
    tick_run (.fin 200) gUnit eClock h1 hmid (by simp [progressOf])
  have hf : ((runTicks (.fin 200) gUnit eClock 198 (initState Unit)).step + 1) % 2 = 0 ∨
      progressOf ((runTicks (.fin 200) gUnit eClock 198 (initState Unit)).step + 1)
        (.fin 200) = some 100 := by
    rw [h2]
    exact Or.inr progressOf_199_200
  obtain ⟨rp, _⟩ := rflush hf
  rw [show (199 : ℕ) = 198 + 1 from rfl, runTicks_succ]
  refine ⟨?_, ?_, r1⟩
  · rw [rp, h2]
    exact progressOf_199_200
  · rw [r4, h3]

end JobSim
